import Mathlib

/-!
Verification development for the heuristic deception-scoring engine of the
lie-analyzer repository (`lib/analyzeFallback.ts`).

Modelling conventions:
* JS strings are modelled as `List Char` internally; the public API keeps
  `String`.  `toLowerCase` is modelled on the ASCII range (the keyword
  tables and all matching-relevant characters are ASCII; characters outside
  the ASCII letters, e.g. Korean copy, have no case in JS either).
* JS numbers are modelled as `ℚ` (exact rationals), `Math.round(x)` as
  `⌊x + 1/2⌋` (round half toward positive infinity, the JS rule), and the
  integer-valued result fields as `ℤ`.
* The regular expression `new RegExp("\\b" + escapeRegExp(k) + "\\b", "gi")`
  together with `text.match(...)` is modelled by `countScan`: a left-to-right
  non-overlapping scan that counts the positions where the literal keyword
  matches case-insensitively and both ends sit on a `\b` word boundary
  (word characters are `[A-Za-z0-9_]`, the string edges are non-word).
  `escapeRegExp` only quotes regex metacharacters, and no keyword contains
  one, so the pattern is the literal keyword between the two `\b`.
* `Array.prototype.sort` is stable in JS; the comparator
  `(a, b) => b.count - a.count` therefore sorts descending by count with
  ties keeping the original order, which `sortDescBy` implements.
* Object-key lookup `fallbackDictionary[locale]` is modelled as own-property
  lookup (`localeFromString`).
-/

namespace LieAnalyzer

/-! ## Character helpers (models of JS primitives) -/

/-- Model of the regex class `\s` on the ASCII range (space, tab, newline,
carriage return, vertical tab, form feed). -/
def isJsSpace (c : Char) : Bool :=
  c == ' ' || c == '\t' || c == '\n' || c == '\r' || c.toNat == 11 || c.toNat == 12

/-- Model of the regex class `\w`: ASCII letters, digits and underscore. -/
def isWordChar (c : Char) : Bool :=
  decide ('a' ≤ c ∧ c ≤ 'z') || decide ('A' ≤ c ∧ c ≤ 'Z')
    || decide ('0' ≤ c ∧ c ≤ '9') || c == '_'

/-- ASCII model of `String.prototype.toLowerCase` (single character). -/
def asciiLower (c : Char) : Char :=
  match c with
  | 'A' => 'a' | 'B' => 'b' | 'C' => 'c' | 'D' => 'd' | 'E' => 'e' | 'F' => 'f'
  | 'G' => 'g' | 'H' => 'h' | 'I' => 'i' | 'J' => 'j' | 'K' => 'k' | 'L' => 'l'
  | 'M' => 'm' | 'N' => 'n' | 'O' => 'o' | 'P' => 'p' | 'Q' => 'q' | 'R' => 'r'
  | 'S' => 's' | 'T' => 't' | 'U' => 'u' | 'V' => 'v' | 'W' => 'w' | 'X' => 'x'
  | 'Y' => 'y' | 'Z' => 'z'
  | other => other

/-- Model of `String.prototype.trim` (ASCII whitespace). -/
def jsTrim (l : List Char) : List Char :=
  ((l.dropWhile isJsSpace).reverse.dropWhile isJsSpace).reverse

/-- Helper of `splitWords`; `cur` holds the current word reversed. -/
def splitWordsAux (cur : List Char) : List Char → List (List Char)
  | [] => if cur.isEmpty then [] else [cur.reverse]
  | c :: rest =>
    if isJsSpace c then
      if cur.isEmpty then splitWordsAux [] rest
      else cur.reverse :: splitWordsAux [] rest
    else splitWordsAux (c :: cur) rest

/-- Model of `text.split(/\s+/).filter(Boolean)`: the non-empty maximal runs
of non-whitespace characters. -/
def splitWords (l : List Char) : List (List Char) :=
  splitWordsAux [] l

/-- The sentence terminators of the split regex `(?<=[.!?])\s+`. -/
def isTermChar (c : Char) : Bool :=
  c == '.' || c == '!' || c == '?'

/-- Helper of `sentSplit`; `acc` holds the current segment reversed, so the
character before the scan position is `acc.head?` (the lookbehind).  While
`skipping` is true the scan is inside the matched separator run `\s+`
(greedy, so it swallows every following whitespace character). -/
def sentSplitAux (skipping : Bool) (acc : List Char) : List Char → List (List Char)
  | [] => [acc.reverse]
  | c :: rest =>
    if skipping then
      if isJsSpace c then sentSplitAux true [] rest
      else sentSplitAux false [c] rest
    else if isJsSpace c && (match acc.head? with | some t => isTermChar t | none => false) then
      acc.reverse :: sentSplitAux true [] rest
    else
      sentSplitAux false (c :: acc) rest

/-- Model of `text.split(/(?<=[.!?])\s+/)`: split at every maximal whitespace
run whose first character is directly preceded by `.`, `!` or `?`. -/
def sentSplit (l : List Char) : List (List Char) :=
  sentSplitAux false [] l

/-- Case-insensitive (ASCII) literal match of `pat` against the front of the
text, the character-by-character part of the regex match. -/
def matchesFront : List Char → List Char → Bool
  | [], _ => true
  | _ :: _, [] => false
  | p :: ps, c :: cs => (asciiLower p == asciiLower c) && matchesFront ps cs

/-- Model of `String.prototype.includes`: whether `pat` occurs as a
contiguous substring of the text (exact comparison). -/
def isSubstring (pat : List Char) : List Char → Bool
  | [] => pat.isEmpty
  | c :: rest => pat.isPrefixOf (c :: rest) || isSubstring pat rest

/-- Whether an optional character (string edge = `none`) is a word character;
used for the `\b` checks. -/
def wordish : Option Char → Bool
  | some c => isWordChar c
  | none => false

/-- The `g`-flag scan of `text.match(/\bkeyword\b/gi)`: count the
non-overlapping, left-to-right matches of the keyword `k0 :: kt` whose two
ends are word boundaries.  `prev` is the character before the scan position;
`skip` is the number of characters of an already-counted match still to be
consumed (the regex resumes after a match, so matches never overlap). -/
def countScanGo (k0 : Char) (kt : List Char) : Nat → Option Char → List Char → Nat
  | _, _, [] => 0
  | skip + 1, _, c :: rest => countScanGo k0 kt skip (some c) rest
  | 0, prev, c :: rest =>
    if (asciiLower c == asciiLower k0) && matchesFront kt rest
        && (wordish prev != isWordChar k0)
        && (isWordChar (kt.getLastD k0) != wordish ((rest.drop kt.length).head?)) then
      1 + countScanGo k0 kt kt.length (some c) rest
    else
      countScanGo k0 kt 0 (some c) rest

/-- The scan started at the beginning of the text. -/
def countScan (k0 : Char) (kt : List Char) (prev : Option Char) (text : List Char) : Nat :=
  countScanGo k0 kt 0 prev text

/-- Number of word-boundary matches of one keyword in the text
(`text.match(new RegExp("\\b" + escapeRegExp(keyword) + "\\b", "gi"))`). -/
def countKeyword (text : List Char) (keyword : String) : Nat :=
  match keyword.toList with
  | [] => 0
  | k0 :: kt => countScan k0 kt none text

/-- Source `countKeywordHits`: total word-boundary match count of all
keywords of a list in the text. -/
def countKeywordHits (text : List Char) (keywords : List String) : Nat :=
  keywords.foldl (fun total keyword => total + countKeyword text keyword) 0

/-- Stable insertion (descending by key `f`): the new element goes after every
already-placed element with an equal or larger key. -/
def insertDescBy (f : α → Nat) (a : α) : List α → List α
  | [] => [a]
  | b :: bs => if f b < f a then a :: b :: bs else b :: insertDescBy f a bs

/-- Stable sort, descending by key `f`: the model of the stable JS
`array.sort((a, b) => f(b) - f(a))`. -/
def sortDescBy (f : α → Nat) (l : List α) : List α :=
  l.foldl (fun acc a => insertDescBy f a acc) []

/-- Model of `Array.prototype.join(sep)`. -/
def joinSep (sep : String) : List String → String
  | [] => ""
  | [a] => a
  | a :: rest => a ++ sep ++ joinSep sep rest

/-- Source `extractKeywordSignals`: the top four keywords by match count
(stable, descending), rendered as `keyword(count)`. -/
def extractKeywordSignals (text : List Char) (keywords : List String) : List String :=
  ((sortDescBy (fun item => item.2)
      ((keywords.map fun keyword => (keyword, countKeyword text keyword)).filter
        fun item => decide (0 < item.2))).take 4).map
    fun item => item.1 ++ "(" ++ Nat.repr item.2 ++ ")"

/-! ## Numeric helpers (models of JS number operations) -/

/-- Model of `Math.round`: round half toward positive infinity. -/
def jsRound (q : ℚ) : ℤ :=
  ⌊q + 1 / 2⌋

/-- Model of `(x).toFixed(1)` for the non-negative values this program
formats: one decimal digit, rounding to nearest. -/
def toFixed1 (q : ℚ) : String :=
  Int.repr (jsRound (q * 10) / 10) ++ "." ++ Int.repr (jsRound (q * 10) % 10)

/-- Helper of `numWithCommas`: the digits arrive reversed, a comma goes after
every three digits that are followed by more. -/
def commaRev : List Char → List Char
  | a :: b :: c :: d :: rest => a :: b :: c :: ',' :: commaRev (d :: rest)
  | l => l

/-- Model of `Number.prototype.toLocaleString()` for naturals under the
default en-US-style grouping: thousands separated by commas. -/
def numWithCommas (n : Nat) : String :=
  String.mk (commaRev (Nat.repr n).toList.reverse).reverse

/-! ## Data model (source `lib/analyzeFallback.ts` types) -/

inductive Locale where
  | ko
  | en
deriving DecidableEq

inductive CueRisk where
  | Baseline
  | Elevated
  | Critical
deriving DecidableEq

structure CueInsight where
  label : String
  value : String
  risk : CueRisk
  detail : String
deriving DecidableEq

instance : Inhabited CueInsight :=
  ⟨⟨"", "", CueRisk.Baseline, ""⟩⟩

structure MetricInsight where
  label : String
  value : String
  hint : String
deriving DecidableEq

structure EvidenceInsight where
  quote : String
  rationale : String
deriving DecidableEq

structure AnalysisResult where
  lieProbability : ℤ
  confidenceScore : ℤ
  summary : String
  cues : List CueInsight
  metrics : List MetricInsight
  evidence : List EvidenceInsight
deriving DecidableEq

structure FallbackMetricsCopy where
  wordCountLabel : String
  wordCountHint : String
  coverageLabel : String
  coverageHint : String
  negationLabel : String
  negationHint : String

structure FallbackEvidenceCopy where
  noDataQuote : String
  noDataDetail : String
  hedgePrefix : String
  pressurePrefix : String
  defaultDetail : String

structure FallbackCopy where
  summary : ℚ → ℚ → ℤ → String
  hedgingLabel : String
  hedgingDetail : List String → String
  hedgingDetailNone : String
  pressureLabel : String
  pressureDetail : List String → String
  pressureDetailNone : String
  negationLabel : String
  negationDetail : String
  conflictLabel : String
  conflictDetail : String
  metrics : FallbackMetricsCopy
  evidence : FallbackEvidenceCopy

/-! ## Keyword tables (source module-level constants) -/

def hedgingKeywords : List String :=
  ["maybe", "perhaps", "possibly", "might", "guess", "around", "roughly",
   "seems", "kind of", "sort of", "probably", "i think", "i believe", "could be"]

def pressureKeywords : List String :=
  ["honestly", "trust me", "believe me", "truth", "swear", "definitely",
   "absolutely", "never", "always", "promise", "100%"]

def contradictionJoiners : List String :=
  ["but", "however", "yet", "though", "nevertheless"]

def negationKeywords : List String :=
  ["not", "didn't", "don't", "no", "never"]

/-! ## Locale dictionary (source `fallbackDictionary`) -/

def koCopy : FallbackCopy where
  summary := fun hedgingDensity pressureDensity lieProbability =>
    "RoBERTa-LIAR 로컬 앙상블 결과: 헤징 " ++ toFixed1 (hedgingDensity * 100)
      ++ "%, 압박 " ++ toFixed1 (pressureDensity * 100)
      ++ "% → 추정 위험도 " ++ Int.repr lieProbability ++ "%."
  hedgingLabel := "헤징 밀도"
  hedgingDetail := fun signals => "불확실성 지표 탐지: " ++ joinSep ", " signals
  hedgingDetailNone := "뚜렷한 헤징 표현은 없으며 다른 지표가 위험도를 구성합니다."
  pressureLabel := "압박 언어"
  pressureDetail := fun signals => "보증성 어휘 관측: " ++ joinSep ", " signals
  pressureDetailNone := "직접적인 압박 언어는 낮은 수준으로 관측됩니다."
  negationLabel := "부정 진술 빈도"
  negationDetail := "연속된 부정 진술은 방어적 진술 패턴과 상관 관계가 있습니다."
  conflictLabel := "상충 구문"
  conflictDetail := "상반된 서술이 연속적으로 등장해 맥락 변동성이 상승했습니다."
  metrics :=
    { wordCountLabel := "단어 수"
      wordCountHint := "샘플 분량은 점수 안정성에 직접 영향을 줍니다."
      coverageLabel := "문장 플래그 비율"
      coverageHint := "위험 지표에 반응한 문장의 비율입니다."
      negationLabel := "부정 빈도"
      negationHint := "집중된 부정 진술은 내러티브 조정 전조일 수 있습니다." }
  evidence :=
    { noDataQuote := "증거 인용을 생성하기에 충분한 문장이 없습니다."
      noDataDetail := "추가 발화를 확보한 뒤 재분석하는 것이 좋습니다."
      hedgePrefix := "헤징 지표"
      pressurePrefix := "압박 지표"
      defaultDetail := "휴리스틱 점수가 높은 문장." }

def enCopy : FallbackCopy where
  summary := fun hedgingDensity pressureDensity lieProbability =>
    "RoBERTa-LIAR offline ensemble: hedging " ++ toFixed1 (hedgingDensity * 100)
      ++ "%, pressure " ++ toFixed1 (pressureDensity * 100)
      ++ "% → deception score " ++ Int.repr lieProbability ++ "%."
  hedgingLabel := "Hedging Density"
  hedgingDetail := fun signals => "Uncertainty markers detected: " ++ joinSep ", " signals
  hedgingDetailNone := "Minimal hedging observed; other cues drive the score."
  pressureLabel := "Pressure Language"
  pressureDetail := fun signals => "Reassurance pressure phrases: " ++ joinSep ", " signals
  pressureDetailNone := "Low use of reassurance language detected."
  negationLabel := "Negation Burst"
  negationDetail := "Frequent denials correlate with defensive narrative posture."
  conflictLabel := "Conflicting Clauses"
  conflictDetail := "Sequential reversals flagged for contextual volatility."
  metrics :=
    { wordCountLabel := "Word Count"
      wordCountHint := "Sample volume directly impacts scoring stability."
      coverageLabel := "Sentence Coverage"
      coverageHint := "Share of the transcript triggering risk markers."
      negationLabel := "Negation Frequency"
      negationHint := "Dense denial clusters often precede narrative adjustments." }
  evidence :=
    { noDataQuote := "Not enough material to generate defensible evidence quotes."
      noDataDetail := "Gather more utterances and rerun the profiler."
      hedgePrefix := "Hedge cue"
      pressurePrefix := "Pressure cue"
      defaultDetail := "High scoring sentence from heuristic engine." }

def fallbackDictionary : Locale → FallbackCopy
  | Locale.ko => koCopy
  | Locale.en => enCopy

/-- Own-property lookup `fallbackDictionary[locale]` for an arbitrary runtime
locale string. -/
def localeFromString (locale : String) : Option Locale :=
  if locale = "ko" then some Locale.ko
  else if locale = "en" then some Locale.en
  else none

/-! ## The engine (source `analyzeTranscriptFallback`), one definition per
source-local constant, parameterised by the trimmed text -/

/-- Source local `lower` (also the per-sentence `normalized`). -/
def lowerT (text : List Char) : List Char :=
  text.map asciiLower

/-- Source local `words`. -/
def wordsT (text : List Char) : List (List Char) :=
  splitWords (lowerT text)

/-- Source local `sentences`. -/
def sentencesT (text : List Char) : List (List Char) :=
  ((sentSplit text).map jsTrim).filter fun segment => !segment.isEmpty

def hedgingHitsT (text : List Char) : Nat :=
  countKeywordHits (lowerT text) hedgingKeywords

def pressureHitsT (text : List Char) : Nat :=
  countKeywordHits (lowerT text) pressureKeywords

def negationHitsT (text : List Char) : Nat :=
  countKeywordHits (lowerT text) negationKeywords

def hedgingDensityT (text : List Char) : ℚ :=
  (hedgingHitsT text : ℚ) / ((Nat.max (wordsT text).length 1 : Nat) : ℚ)

def pressureDensityT (text : List Char) : ℚ :=
  (pressureHitsT text : ℚ) / ((Nat.max (wordsT text).length 1 : Nat) : ℚ)

def negationDensityT (text : List Char) : ℚ :=
  (negationHitsT text : ℚ) / ((Nat.max (wordsT text).length 1 : Nat) : ℚ)

/-- The filter of `contradictionCandidates`: the sentence contains a
space-padded contrast joiner and one of the four literal markers as a
substring of its lower-cased form. -/
def isConflictingSentence (sentence : List Char) : Bool :=
  (contradictionJoiners.any fun joiner =>
      isSubstring (" " ++ joiner ++ " ").toList (lowerT sentence))
    && (isSubstring "i didn't".toList (lowerT sentence)
        || isSubstring "i did".toList (lowerT sentence)
        || isSubstring "never".toList (lowerT sentence)
        || isSubstring "no".toList (lowerT sentence))

/-- Source local `contradictionCandidates`. -/
def contradictionCandidatesT (text : List Char) : List (List Char) :=
  ((sentencesT text).filter isConflictingSentence).take 3

/-- The per-sentence score of the highlighting step: how many of the hedging
and pressure keywords occur as substrings of the lower-cased sentence. -/
def sentenceKeywordHits (sentence : List Char) : Nat :=
  ((hedgingKeywords ++ pressureKeywords).filter fun keyword =>
    isSubstring keyword.toList (lowerT sentence)).length

/-- Source local `highlightedSentences`. -/
def highlightedSentencesT (text : List Char) : List (List Char) :=
  ((sortDescBy (fun entry => entry.2)
      (((sentencesT text).map fun sentence => (sentence, sentenceKeywordHits sentence)).filter
        fun entry => decide (0 < entry.2))).take 3).map
    fun entry => entry.1

def baseScoreT (text : List Char) : ℚ :=
  42 + hedgingDensityT text * 520 + pressureDensityT text * 360
    + negationDensityT text * 180 + ((contradictionCandidatesT text).length : ℚ) * 4

def lieProbabilityT (text : List Char) : ℤ :=
  min 96 (max 5 (jsRound (baseScoreT text)))

def coverageFactorT (text : List Char) : ℚ :=
  min 1 (((wordsT text).length : ℚ) / 320)

def stabilityPenaltyT (text : List Char) : ℚ :=
  |hedgingDensityT text - pressureDensityT text| * 120

def confidenceScoreT (text : List Char) : ℤ :=
  max 38 (min 94 (jsRound (58 + coverageFactorT text * 32 - stabilityPenaltyT text)))

def hedgingSignalsT (text : List Char) : List String :=
  extractKeywordSignals (lowerT text) hedgingKeywords

def pressureSignalsT (text : List Char) : List String :=
  extractKeywordSignals (lowerT text) pressureKeywords

def cuesT (text : List Char) (locale : Locale) : List CueInsight :=
  [{ label := (fallbackDictionary locale).hedgingLabel
     value := toFixed1 (hedgingDensityT text * 100) ++ "%"
     risk :=
       if (0.035 : ℚ) < hedgingDensityT text then CueRisk.Elevated
       else if (0.02 : ℚ) < hedgingDensityT text then CueRisk.Baseline
       else CueRisk.Baseline
     detail :=
       if (hedgingSignalsT text).isEmpty then (fallbackDictionary locale).hedgingDetailNone
       else (fallbackDictionary locale).hedgingDetail (hedgingSignalsT text) },
   { label := (fallbackDictionary locale).pressureLabel
     value := toFixed1 (pressureDensityT text * 100) ++ "%"
     risk :=
       if (0.03 : ℚ) < pressureDensityT text then CueRisk.Critical
       else if (0.015 : ℚ) < pressureDensityT text then CueRisk.Elevated
       else CueRisk.Baseline
     detail :=
       if (pressureSignalsT text).isEmpty then (fallbackDictionary locale).pressureDetailNone
       else (fallbackDictionary locale).pressureDetail (pressureSignalsT text) },
   { label := (fallbackDictionary locale).negationLabel
     value := toFixed1 (negationDensityT text * 100) ++ "%"
     risk :=
       if (0.025 : ℚ) < negationDensityT text then CueRisk.Elevated
       else CueRisk.Baseline
     detail := (fallbackDictionary locale).negationDetail }]
  ++ (if 0 < (contradictionCandidatesT text).length then
        [{ label := (fallbackDictionary locale).conflictLabel
           value := Nat.repr (contradictionCandidatesT text).length
           risk :=
             if 1 < (contradictionCandidatesT text).length then CueRisk.Critical
             else CueRisk.Elevated
           detail := (fallbackDictionary locale).conflictDetail }]
      else [])

def metricsT (text : List Char) (locale : Locale) : List MetricInsight :=
  [{ label := (fallbackDictionary locale).metrics.wordCountLabel
     value := numWithCommas (wordsT text).length ++ " terms"
     hint := (fallbackDictionary locale).metrics.wordCountHint },
   { label := (fallbackDictionary locale).metrics.coverageLabel
     value := Int.repr (jsRound (((highlightedSentencesT text).length : ℚ)
                / ((Nat.max (sentencesT text).length 1 : Nat) : ℚ) * 100)) ++ "%"
     hint := (fallbackDictionary locale).metrics.coverageHint },
   { label := (fallbackDictionary locale).metrics.negationLabel
     value := toFixed1 (negationDensityT text * 100) ++ "%"
     hint := (fallbackDictionary locale).metrics.negationHint }]

def summaryT (text : List Char) (locale : Locale) : String :=
  (fallbackDictionary locale).summary (hedgingDensityT text) (pressureDensityT text)
    (lieProbabilityT text)

/-- The index-dependent rationale parts of `synthesizeEvidence`
(`hedgingSignals[index]` and `pressureSignals[index]`, both skipped when
absent or empty, matching JS truthiness). -/
def rationaleParts (copy : FallbackEvidenceCopy) (hedgingSignals pressureSignals : List String)
    (index : Nat) : List String :=
  (if (hedgingSignals.getD index "").isEmpty then []
   else [copy.hedgePrefix ++ ": " ++ hedgingSignals.getD index ""])
  ++ (if (pressureSignals.getD index "").isEmpty then []
      else [copy.pressurePrefix ++ ": " ++ pressureSignals.getD index ""])

/-- The `highlighted.map((sentence, index) => …)` body of
`synthesizeEvidence`, recursion over the highlighted sentences carrying the
index. -/
def synthEvGo (copy : FallbackEvidenceCopy) (hedgingSignals pressureSignals : List String) :
    Nat → List (List Char) → List EvidenceInsight
  | _, [] => []
  | index, sentence :: rest =>
    { quote := String.mk sentence
      rationale :=
        if (rationaleParts copy hedgingSignals pressureSignals index).isEmpty then
          copy.defaultDetail
        else joinSep " | " (rationaleParts copy hedgingSignals pressureSignals index) }
      :: synthEvGo copy hedgingSignals pressureSignals (index + 1) rest

/-- Source `synthesizeEvidence`.  Note that the source looks the locale up
strictly (`fallbackDictionary[locale].evidence`, no `?? ko` fallback); with
the typed `Locale` the lookup always succeeds. -/
def synthesizeEvidence (highlighted : List (List Char))
    (hedgingSignals pressureSignals : List String) (locale : Locale) : List EvidenceInsight :=
  if highlighted.isEmpty then
    [{ quote := (fallbackDictionary locale).evidence.noDataQuote
       rationale := (fallbackDictionary locale).evidence.noDataDetail }]
  else
    synthEvGo (fallbackDictionary locale).evidence hedgingSignals pressureSignals 0 highlighted

/-- The engine on the already-trimmed text. -/
def analyzeTextFallback (text : List Char) (locale : Locale) : AnalysisResult where
  lieProbability := lieProbabilityT text
  confidenceScore := confidenceScoreT text
  summary := summaryT text locale
  cues := cuesT text locale
  metrics := metricsT text locale
  evidence :=
    synthesizeEvidence (highlightedSentencesT text) (hedgingSignalsT text)
      (pressureSignalsT text) locale

/-- Source `analyzeTranscriptFallback` with the declared `Locale` type. -/
def analyzeTranscriptFallback (raw : String) (locale : Locale := Locale.ko) : AnalysisResult :=
  analyzeTextFallback (jsTrim raw.toList) locale

/-- Source `analyzeTranscriptFallback` under runtime (JS) semantics, where
`locale` is an arbitrary string.  For an unrecognized locale the call throws:
`synthesizeEvidence` reads `fallbackDictionary[locale].evidence` without the
`?? fallbackDictionary.ko` fallback that the main body uses, so the property
access on `undefined` raises a TypeError while the result object is built.
`none` models that exception. -/
def analyzeTranscriptFallbackJS (raw : String) (locale : String) : Option AnalysisResult :=
  match localeFromString locale with
  | some l => some (analyzeTranscriptFallback raw l)
  | none => none

/-! ## Raw-string accessors used by the claim statements -/

/-- Source local `text`: the trimmed input. -/
def textOf (raw : String) : List Char :=
  jsTrim raw.toList

def sentencesOf (raw : String) : List (List Char) :=
  sentencesT (textOf raw)

def hedgingDensityOf (raw : String) : ℚ :=
  hedgingDensityT (textOf raw)

def highlightedSentencesOf (raw : String) : List (List Char) :=
  highlightedSentencesT (textOf raw)

/-! ## Claim-side definitions (written from the words of the claims, for the
refutation and comparison steps) -/

/-- The conflicting-clause test as claim C5 words it: the sentence contains a
contrast conjunction as a standalone word (word-boundary occurrence) and also
contains one of the four denial or assertion markers. -/
def claimIsConflicting (sentence : List Char) : Bool :=
  (contradictionJoiners.any fun joiner =>
      decide (0 < countKeyword (lowerT sentence) joiner))
    && (["didn't", "did", "never", "no"].any fun marker =>
      isSubstring marker.toList (lowerT sentence))

/-- The per-sentence evidence score as claim C6 words it: the raw total of
word-boundary keyword occurrences (not the number of distinct keywords). -/
def claimSentenceScore (sentence : String) : Nat :=
  countKeywordHits (lowerT sentence.toList) (hedgingKeywords ++ pressureKeywords)

/-- The number of retained conflicting sentences (at most three). -/
def conflictCountOf (raw : String) : Nat :=
  min ((sentencesOf raw).countP isConflictingSentence) 3

/-- The constant (non-templated) strings of one locale copy table. -/
def copyConstStrings (c : FallbackCopy) : List String :=
  [c.hedgingLabel, c.hedgingDetailNone, c.pressureLabel, c.pressureDetailNone,
   c.negationLabel, c.negationDetail, c.conflictLabel, c.conflictDetail,
   c.metrics.wordCountLabel, c.metrics.wordCountHint, c.metrics.coverageLabel,
   c.metrics.coverageHint, c.metrics.negationLabel, c.metrics.negationHint,
   c.evidence.noDataQuote, c.evidence.noDataDetail, c.evidence.hedgePrefix,
   c.evidence.pressurePrefix, c.evidence.defaultDetail]

/-- Every string a locale copy table can produce: a constant entry, or an
instance of one of its templates.  This is the meaning of "drawn from that
single locale's copy" in claim C10. -/
def FromCopyFull (c : FallbackCopy) (s : String) : Prop :=
  s ∈ copyConstStrings c
    ∨ (∃ sig, s = c.hedgingDetail sig)
    ∨ (∃ sig, s = c.pressureDetail sig)
    ∨ (∃ h p lp, s = c.summary h p lp)
    ∨ (∃ t, s = c.evidence.hedgePrefix ++ ": " ++ t)
    ∨ (∃ t, s = c.evidence.pressurePrefix ++ ": " ++ t)

/-- The cue-detail strings a locale copy table can produce. -/
def DetailFromCopy (c : FallbackCopy) (s : String) : Prop :=
  s = c.hedgingDetailNone ∨ s = c.pressureDetailNone ∨ s = c.negationDetail
    ∨ s = c.conflictDetail
    ∨ (∃ sig, s = c.hedgingDetail sig)
    ∨ (∃ sig, s = c.pressureDetail sig)

/-- The evidence-rationale strings a locale copy table can produce. -/
def RationaleFromCopy (c : FallbackCopy) (s : String) : Prop :=
  s = c.evidence.defaultDetail ∨ s = c.evidence.noDataDetail
    ∨ (∃ t, s = c.evidence.hedgePrefix ++ ": " ++ t)
    ∨ (∃ t, s = c.evidence.pressurePrefix ++ ": " ++ t)
    ∨ (∃ t u, s = c.evidence.hedgePrefix ++ ": " ++ t ++ " | "
          ++ (c.evidence.pressurePrefix ++ ": " ++ u))

/-- The text family of claim C8: the hedging keyword "maybe " repeated n
times. -/
def repeatedMaybe : Nat → String
  | 0 => ""
  | n + 1 => "maybe " ++ repeatedMaybe n

/-- The trimmed form of `repeatedMaybe`: n occurrences of "maybe" separated
by single spaces. -/
def maybeText : Nat → List Char
  | 0 => []
  | 1 => "maybe".toList
  | n + 2 => "maybe ".toList ++ maybeText (n + 1)

/-! ## Helper lemmas -/

theorem jsRound_eq (q : ℚ) (z : ℤ) (h1 : (z : ℚ) ≤ q + 1 / 2) (h2 : q + 1 / 2 < z + 1) :
    jsRound q = z := by
  rw [jsRound]
  exact Int.floor_eq_iff.mpr ⟨h1, h2⟩

theorem jsRound_le_of_le (q : ℚ) (z : ℤ) (h : (z : ℚ) ≤ q) : z ≤ jsRound q := by
  rw [jsRound]
  refine Int.le_floor.mpr (le_trans h ?_)
  linarith

theorem asciiLower_space (c : Char) : isJsSpace (asciiLower c) = isJsSpace c := by
  unfold asciiLower
  split <;> rfl

theorem splitWordsAux_lower (l : List Char) (cur : List Char) :
    splitWordsAux (cur.map asciiLower) (l.map asciiLower)
      = (splitWordsAux cur l).map (List.map asciiLower) := by
  induction l generalizing cur with
  | nil =>
    cases cur <;> simp [splitWordsAux]
  | cons c rest ih =>
    simp only [List.map_cons, splitWordsAux]
    rw [asciiLower_space]
    by_cases hc : isJsSpace c
    · rw [if_pos hc, if_pos hc]
      cases cur with
      | nil => simpa using ih []
      | cons a as =>
        rw [if_neg (by simp), if_neg (by simp), List.map_cons]
        congr 1
        · simp [List.map_reverse]
        · simpa using ih []
    · rw [if_neg hc, if_neg hc]
      exact ih (c :: cur)

theorem splitWords_lowerT_length (t : List Char) :
    (splitWords (lowerT t)).length = (splitWords t).length := by
  unfold splitWords lowerT
  rw [show ([] : List Char) = ([] : List Char).map asciiLower from rfl,
    splitWordsAux_lower t []]
  simp

theorem wordsT_length (t : List Char) : (wordsT t).length = (splitWords t).length := by
  unfold wordsT
  exact splitWords_lowerT_length t

theorem contradictionCandidatesT_length (t : List Char) :
    (contradictionCandidatesT t).length
      = min ((sentencesT t).countP isConflictingSentence) 3 := by
  unfold contradictionCandidatesT
  rw [List.length_take, List.countP_eq_length_filter]
  exact Nat.min_comm _ _

theorem mem_insertDescBy (f : α → Nat) (a x : α) (l : List α) :
    x ∈ insertDescBy f a l ↔ x = a ∨ x ∈ l := by
  induction l with
  | nil => simp [insertDescBy]
  | cons b bs ih =>
    rw [insertDescBy]
    split
    · simp
    · simp only [List.mem_cons, ih]
      tauto

theorem mem_sortDescBy_aux (f : α → Nat) (l acc : List α) (x : α) :
    x ∈ l.foldl (fun acc a => insertDescBy f a acc) acc ↔ x ∈ acc ∨ x ∈ l := by
  induction l generalizing acc with
  | nil => simp
  | cons a as ih =>
    rw [List.foldl_cons, ih, mem_insertDescBy]
    simp only [List.mem_cons]
    tauto

theorem mem_sortDescBy (f : α → Nat) (l : List α) (x : α) :
    x ∈ sortDescBy f l ↔ x ∈ l := by
  unfold sortDescBy
  rw [mem_sortDescBy_aux]
  simp

theorem synthEvGo_map_quote (copy : FallbackEvidenceCopy) (hs ps : List String)
    (i : Nat) (l : List (List Char)) :
    (synthEvGo copy hs ps i l).map (fun e => e.quote) = l.map String.mk := by
  induction l generalizing i with
  | nil => rfl
  | cons s rest ih => simp [synthEvGo, ih]

theorem synthEvGo_length (copy : FallbackEvidenceCopy) (hs ps : List String)
    (i : Nat) (l : List (List Char)) :
    (synthEvGo copy hs ps i l).length = l.length := by
  induction l generalizing i with
  | nil => rfl
  | cons s rest ih => simp [synthEvGo, ih]

theorem mem_highlightedSentencesT (t : List Char) (s : List Char)
    (h : s ∈ highlightedSentencesT t) : s ∈ sentencesT t := by
  unfold highlightedSentencesT at h
  obtain ⟨entry, hmem, hfst⟩ := List.mem_map.mp h
  have h1 : entry ∈ sortDescBy (fun entry => entry.2)
      (((sentencesT t).map fun sentence => (sentence, sentenceKeywordHits sentence)).filter
        fun entry => decide (0 < entry.2)) :=
    List.take_subset _ _ hmem
  have h2 := (mem_sortDescBy _ _ _).mp h1
  have h3 := List.mem_of_mem_filter h2
  obtain ⟨x, hx, hxe⟩ := List.mem_map.mp h3
  subst hfst
  rw [← hxe]
  exact hx

/-! ## Claim theorems -/

/-- C1: for every input string and supported locale, `lieProbability` equals
`clamp(round(42 + hedgingDensity * 520 + pressureDensity * 360 +
negationDensity * 180 + contradictionCount * 4), 5, 96)` and
`confidenceScore` equals `clamp(round(58 + min(1, wordCount / 320) * 32 -
|hedgingDensity - pressureDensity| * 120), 38, 94)`, where `wordCount` is the
number of non-empty whitespace-separated tokens of the trimmed text, each
density is that keyword list's total word-boundary match count over the
lower-cased text divided by `max(wordCount, 1)`, and `contradictionCount` is
the number of retained conflicting sentences, capped at three. -/
theorem c1_score_formula (raw : String) (locale : Locale) :
    (analyzeTranscriptFallback raw locale).lieProbability
        = min 96 (max 5 (jsRound (42
            + (countKeywordHits (lowerT (textOf raw)) hedgingKeywords : ℚ)
                / ((Nat.max (splitWords (textOf raw)).length 1 : Nat) : ℚ) * 520
            + (countKeywordHits (lowerT (textOf raw)) pressureKeywords : ℚ)
                / ((Nat.max (splitWords (textOf raw)).length 1 : Nat) : ℚ) * 360
            + (countKeywordHits (lowerT (textOf raw)) negationKeywords : ℚ)
                / ((Nat.max (splitWords (textOf raw)).length 1 : Nat) : ℚ) * 180
            + ((min ((sentencesOf raw).countP isConflictingSentence) 3 : Nat) : ℚ) * 4)))
    ∧ (analyzeTranscriptFallback raw locale).confidenceScore
        = max 38 (min 94 (jsRound (58
            + min 1 (((splitWords (textOf raw)).length : ℚ) / 320) * 32
            - |(countKeywordHits (lowerT (textOf raw)) hedgingKeywords : ℚ)
                  / ((Nat.max (splitWords (textOf raw)).length 1 : Nat) : ℚ)
                - (countKeywordHits (lowerT (textOf raw)) pressureKeywords : ℚ)
                  / ((Nat.max (splitWords (textOf raw)).length 1 : Nat) : ℚ)| * 120))) := by
  have hw : (wordsT (textOf raw)).length = (splitWords (textOf raw)).length :=
    wordsT_length _
  have hc : (contradictionCandidatesT (textOf raw)).length
      = min ((sentencesT (textOf raw)).countP isConflictingSentence) 3 :=
    contradictionCandidatesT_length _
  constructor
  · show lieProbabilityT (textOf raw) = _
    unfold lieProbabilityT baseScoreT hedgingDensityT pressureDensityT negationDensityT
      hedgingHitsT pressureHitsT negationHitsT sentencesOf
    rw [hw, hc]
  · show confidenceScoreT (textOf raw) = _
    unfold confidenceScoreT coverageFactorT stabilityPenaltyT hedgingDensityT
      pressureDensityT hedgingHitsT pressureHitsT
    rw [hw]

/-- C2: the spec requires the engine never to throw and to serve an
unrecognized locale with the default (ko) copy; the code instead throws a
TypeError for any unrecognized locale, because `synthesizeEvidence` reads
`fallbackDictionary[locale].evidence` without the `?? fallbackDictionary.ko`
fallback used elsewhere.  Under runtime semantics the call on locale "fr"
produces the exception (modelled as `none`) instead of a result. -/
theorem c2_unrecognized_locale_throws :
    analyzeTranscriptFallbackJS "hello" "fr" = none := rfl

/-- C3: for the empty input (and any whitespace-only input) under the English
locale, `lieProbability` is 42 (the formula value for all-zero signals) and
the evidence list is exactly one placeholder entry carrying the English
no-data copy; moreover the documented floor of 5 is unreachable: every result
of the engine has `lieProbability` at least 42, because the formula adds only
non-negative contributions to the 42 baseline. -/
theorem c3_empty_input (raw : String) (h : jsTrim raw.toList = []) :
    (analyzeTranscriptFallback raw Locale.en).lieProbability = 42
    ∧ (analyzeTranscriptFallback raw Locale.en).evidence
        = [{ quote := enCopy.evidence.noDataQuote
             rationale := enCopy.evidence.noDataDetail }]
    ∧ ∀ (other : String) (otherLocale : Locale),
        42 ≤ (analyzeTranscriptFallback other otherLocale).lieProbability := by
  have e : analyzeTranscriptFallback raw Locale.en = analyzeTextFallback [] Locale.en := by
    unfold analyzeTranscriptFallback
    rw [h]
  have hbase : baseScoreT ([] : List Char) = 42 := by
    unfold baseScoreT hedgingDensityT pressureDensityT negationDensityT hedgingHitsT
      pressureHitsT negationHitsT
    rw [show countKeywordHits (lowerT []) hedgingKeywords = 0 from rfl,
      show countKeywordHits (lowerT []) pressureKeywords = 0 from rfl,
      show countKeywordHits (lowerT []) negationKeywords = 0 from rfl,
      show (contradictionCandidatesT []).length = 0 from rfl,
      show Nat.max (wordsT ([] : List Char)).length 1 = 1 from rfl]
    norm_num
  refine ⟨?_, ?_, ?_⟩
  · rw [e]
    show lieProbabilityT ([] : List Char) = 42
    unfold lieProbabilityT
    rw [hbase, jsRound_eq 42 42 (by norm_num) (by norm_num)]
    decide
  · rw [e]
    rfl
  · intro other otherLocale
    show 42 ≤ lieProbabilityT (jsTrim other.toList)
    have h0 : (0 : ℚ) ≤ hedgingDensityT (jsTrim other.toList) := by
      unfold hedgingDensityT
      positivity
    have h1 : (0 : ℚ) ≤ pressureDensityT (jsTrim other.toList) := by
      unfold pressureDensityT
      positivity
    have h2 : (0 : ℚ) ≤ negationDensityT (jsTrim other.toList) := by
      unfold negationDensityT
      positivity
    have h3 : (0 : ℚ) ≤ ((contradictionCandidatesT (jsTrim other.toList)).length : ℚ) :=
      Nat.cast_nonneg _
    have hb : (42 : ℚ) ≤ baseScoreT (jsTrim other.toList) := by
      unfold baseScoreT
      have m0 := mul_nonneg h0 (by norm_num : (0 : ℚ) ≤ 520)
      have m1 := mul_nonneg h1 (by norm_num : (0 : ℚ) ≤ 360)
      have m2 := mul_nonneg h2 (by norm_num : (0 : ℚ) ≤ 180)
      have m3 := mul_nonneg h3 (by norm_num : (0 : ℚ) ≤ 4)
      linarith
    have hj : (42 : ℤ) ≤ jsRound (baseScoreT (jsTrim other.toList)) :=
      jsRound_le_of_le _ _ (by exact_mod_cast hb)
    show 42 ≤ min 96 (max 5 (jsRound (baseScoreT (jsTrim other.toList))))
    omega

/-- C3 witness: evaluation at the concrete empty input. -/
theorem c3_empty_input_witness :
    jsTrim "".toList = []
    ∧ (analyzeTranscriptFallback "" Locale.en).lieProbability = 42
    ∧ (analyzeTranscriptFallback "" Locale.en).evidence
        = [{ quote := enCopy.evidence.noDataQuote
             rationale := enCopy.evidence.noDataDetail }] :=
  ⟨rfl, (c3_empty_input "" rfl).1, (c3_empty_input "" rfl).2.1⟩

/-- C4: for every input string and supported locale, `lieProbability` stays
within `[5, 96]` and `confidenceScore` within `[38, 94]`. -/
theorem c4_bounds (raw : String) (locale : Locale) :
    5 ≤ (analyzeTranscriptFallback raw locale).lieProbability
    ∧ (analyzeTranscriptFallback raw locale).lieProbability ≤ 96
    ∧ 38 ≤ (analyzeTranscriptFallback raw locale).confidenceScore
    ∧ (analyzeTranscriptFallback raw locale).confidenceScore ≤ 94 := by
  have e1 : (analyzeTranscriptFallback raw locale).lieProbability
      = min 96 (max 5 (jsRound (baseScoreT (textOf raw)))) := rfl
  have e2 : (analyzeTranscriptFallback raw locale).confidenceScore
      = max 38 (min 94 (jsRound (58 + coverageFactorT (textOf raw) * 32
            - stabilityPenaltyT (textOf raw)))) := rfl
  refine ⟨?_, ?_, ?_, ?_⟩
  · rw [e1]; omega
  · rw [e1]; omega
  · rw [e2]; omega
  · rw [e2]; omega

/-- C5 counterexample: the sentence "But I never did it." contains the
contrast conjunction "but" as a standalone word and the denial markers
"never" and "did", so under the claim it is one conflicting clause and a
fourth conflict cue should appear; the code, which requires the joiner to
occur with a space on both sides (`includes(" but ")`), counts nothing and
emits only three cues. -/
theorem c5_counterexample :
    claimIsConflicting "But I never did it.".toList = true
    ∧ (analyzeTranscriptFallback "But I never did it." Locale.en).cues.length = 3 := by
  constructor
  · decide
  · decide

/-- C5 (amended): a sentence is counted as a conflicting clause exactly when
its lower-cased form contains a contrast conjunction with a space on each
side (substring `" joiner "`, not a standalone word) and also contains one of
the literal substrings "i didn't", "i did", "never", "no"; at most three such
sentences are retained, their count is the conflict cue value, the cue
appears exactly when the count is non-zero, with risk Critical when the count
exceeds one and Elevated otherwise; on "I didn't take it, but I did return
later." exactly one conflicting clause is counted and the cue has value "1"
and risk Elevated. -/
theorem c5_amended (raw : String) (locale : Locale) :
    ((analyzeTranscriptFallback raw locale).cues.length
        = 3 + (if conflictCountOf raw = 0 then 0 else 1))
    ∧ ((analyzeTranscriptFallback raw locale).cues.drop 3
        = if conflictCountOf raw = 0 then []
          else [{ label := (fallbackDictionary locale).conflictLabel
                  value := Nat.repr (conflictCountOf raw)
                  risk := if 1 < conflictCountOf raw then CueRisk.Critical
                      else CueRisk.Elevated
                  detail := (fallbackDictionary locale).conflictDetail }])
    ∧ conflictCountOf "I didn't take it, but I did return later." = 1
    ∧ (analyzeTranscriptFallback "I didn't take it, but I did return later." Locale.en).cues.drop 3
        = [{ label := "Conflicting Clauses"
             value := "1"
             risk := CueRisk.Elevated
             detail := "Sequential reversals flagged for contextual volatility." }] := by
  have hcc : (contradictionCandidatesT (textOf raw)).length = conflictCountOf raw := by
    rw [contradictionCandidatesT_length]
    rfl
  refine ⟨?_, ?_, by decide, by decide⟩
  · show (cuesT (textOf raw) locale).length = _
    unfold cuesT
    rw [List.length_append, hcc]
    by_cases h : conflictCountOf raw = 0
    · rw [if_pos h, if_neg (by omega : ¬ 0 < conflictCountOf raw)]
      rfl
    · rw [if_neg h, if_pos (by omega : 0 < conflictCountOf raw)]
      rfl
  · show (cuesT (textOf raw) locale).drop 3 = _
    unfold cuesT
    rw [hcc]
    simp only [List.cons_append, List.nil_append, List.drop_succ_cons, List.drop_zero]
    by_cases h : conflictCountOf raw = 0
    · rw [if_pos h, if_neg (by omega : ¬ 0 < conflictCountOf raw)]
    · rw [if_neg h, if_pos (by omega : 0 < conflictCountOf raw)]

/-- C6 counterexample: under the claim, sentences are scored by the raw
occurrence count of hedging and pressure keywords, which gives "Maybe maybe
maybe." the score 3 and "I guess it seems fine." the score 2, so the first
should lead the evidence list; the code scores a sentence by the number of
distinct keywords it contains as substrings (1 versus 2 here) and returns the
opposite order. -/
theorem c6_counterexample :
    claimSentenceScore "Maybe maybe maybe." = 3
    ∧ claimSentenceScore "I guess it seems fine." = 2
    ∧ ((analyzeTranscriptFallback "Maybe maybe maybe. I guess it seems fine." Locale.en).evidence.map
        (fun e => e.quote))
        = ["I guess it seems fine.", "Maybe maybe maybe."] := by
  refine ⟨by decide, by decide, by decide⟩

/-- C6 (amended): evidence selection scores each sentence by the number of
distinct hedging-plus-pressure keywords occurring as substrings of its
lower-cased form (not by raw occurrence count), keeps the sentences with a
non-zero score, sorts them descending by that score with a stable sort, takes
the first three as the evidence quotes (with the no-data placeholder when
none qualifies), and every selected quote is a verbatim sentence of the
transcript. -/
theorem c6_amended (raw : String) (locale : Locale) :
    ((analyzeTranscriptFallback raw locale).evidence.map (fun e => e.quote)
        = if (highlightedSentencesOf raw).isEmpty
          then [(fallbackDictionary locale).evidence.noDataQuote]
          else (highlightedSentencesOf raw).map String.mk)
    ∧ ∀ s ∈ highlightedSentencesOf raw, s ∈ sentencesOf raw := by
  constructor
  · show (synthesizeEvidence (highlightedSentencesT (textOf raw)) (hedgingSignalsT (textOf raw))
        (pressureSignalsT (textOf raw)) locale).map (fun e => e.quote) = _
    unfold synthesizeEvidence highlightedSentencesOf
    by_cases h : (highlightedSentencesT (textOf raw)).isEmpty
    · rw [if_pos h, if_pos h]
      rfl
    · rw [if_neg h, if_neg h, synthEvGo_map_quote]
  · intro s hs
    exact mem_highlightedSentencesT (textOf raw) s hs

/-- C6 witness: on the one-sentence transcript "Maybe fine." the selected
sentence is the transcript sentence itself. -/
theorem c6_amended_witness :
    "Maybe fine.".toList ∈ sentencesOf "Maybe fine." :=
  (c6_amended "Maybe fine." Locale.en).2 "Maybe fine.".toList (by decide)

theorem synthesizeEvidence_length_locale (H : List (List Char)) (hs ps : List String)
    (l1 l2 : Locale) :
    (synthesizeEvidence H hs ps l1).length = (synthesizeEvidence H hs ps l2).length := by
  unfold synthesizeEvidence
  simp only [apply_ite List.length, List.length_singleton, synthEvGo_length]

theorem mem_synthEvGo (copy : FallbackEvidenceCopy) (hs ps : List String)
    (l : List (List Char)) (e : EvidenceInsight) (i : Nat)
    (he : e ∈ synthEvGo copy hs ps i l) :
    ∃ s, s ∈ l ∧ ∃ j, e = ⟨String.mk s,
      if (rationaleParts copy hs ps j).isEmpty then copy.defaultDetail
      else joinSep " | " (rationaleParts copy hs ps j)⟩ := by
  induction l generalizing i with
  | nil => exact absurd he (List.not_mem_nil e)
  | cons s rest ih =>
    rcases List.mem_cons.mp he with he1 | he2
    · exact ⟨s, List.mem_cons_self _ _, i, he1⟩
    · obtain ⟨s2, hs2, j, hej⟩ := ih (i + 1) he2
      exact ⟨s2, List.mem_cons_of_mem _ hs2, j, hej⟩

theorem rationale_mem_copy (c : FallbackCopy) (hs ps : List String) (i : Nat) :
    RationaleFromCopy c
      (if (rationaleParts c.evidence hs ps i).isEmpty then c.evidence.defaultDetail
       else joinSep " | " (rationaleParts c.evidence hs ps i)) := by
  unfold rationaleParts
  by_cases hA : (hs.getD i "").isEmpty <;> by_cases hB : (ps.getD i "").isEmpty
  · rw [if_pos hA, if_pos hB]
    exact Or.inl (if_pos rfl)
  · rw [if_pos hA, if_neg hB]
    simp only [List.nil_append]
    rw [if_neg (by simp)]
    exact Or.inr (Or.inr (Or.inr (Or.inl ⟨ps.getD i "", rfl⟩)))
  · rw [if_neg hA, if_pos hB]
    simp only [List.append_nil]
    rw [if_neg (by simp)]
    exact Or.inr (Or.inr (Or.inl ⟨hs.getD i "", rfl⟩))
  · rw [if_neg hA, if_neg hB]
    simp only [List.cons_append, List.nil_append]
    rw [if_neg (by simp)]
    exact Or.inr (Or.inr (Or.inr (Or.inr ⟨hs.getD i "", ps.getD i "", rfl⟩)))

set_option maxHeartbeats 2000000 in
/-- Shared provenance facts used by claims C7 and C10: every copy-backed
text field of a result is drawn from the selected locale copy table, and
every evidence quote is the placeholder or a verbatim transcript
sentence. -/
theorem copyProvenance (raw : String) (locale : Locale) :
    (∃ h p lp, (analyzeTranscriptFallback raw locale).summary
        = (fallbackDictionary locale).summary h p lp)
    ∧ ((analyzeTranscriptFallback raw locale).cues.map (fun c => c.label)
          = [(fallbackDictionary locale).hedgingLabel, (fallbackDictionary locale).pressureLabel,
             (fallbackDictionary locale).negationLabel]
        ∨ (analyzeTranscriptFallback raw locale).cues.map (fun c => c.label)
          = [(fallbackDictionary locale).hedgingLabel, (fallbackDictionary locale).pressureLabel,
             (fallbackDictionary locale).negationLabel, (fallbackDictionary locale).conflictLabel])
    ∧ (∀ cue ∈ (analyzeTranscriptFallback raw locale).cues,
        DetailFromCopy (fallbackDictionary locale) cue.detail)
    ∧ (analyzeTranscriptFallback raw locale).metrics.map (fun m => m.label)
        = [(fallbackDictionary locale).metrics.wordCountLabel,
           (fallbackDictionary locale).metrics.coverageLabel,
           (fallbackDictionary locale).metrics.negationLabel]
    ∧ (analyzeTranscriptFallback raw locale).metrics.map (fun m => m.hint)
        = [(fallbackDictionary locale).metrics.wordCountHint,
           (fallbackDictionary locale).metrics.coverageHint,
           (fallbackDictionary locale).metrics.negationHint]
    ∧ (∀ e ∈ (analyzeTranscriptFallback raw locale).evidence,
        RationaleFromCopy (fallbackDictionary locale) e.rationale
        ∧ (e.quote = (fallbackDictionary locale).evidence.noDataQuote
            ∨ ∃ s, s ∈ sentencesOf raw ∧ e.quote = String.mk s)) := by
  refine ⟨⟨hedgingDensityT (textOf raw), pressureDensityT (textOf raw),
      lieProbabilityT (textOf raw), rfl⟩, ?_, ?_, rfl, rfl, ?_⟩
  · show (cuesT (textOf raw) locale).map (fun c => c.label) = _
        ∨ (cuesT (textOf raw) locale).map (fun c => c.label) = _
    unfold cuesT
    by_cases h : 0 < (contradictionCandidatesT (textOf raw)).length
    · right
      rw [if_pos h]
      simp only [List.map_append, List.map_cons, List.map_nil, List.cons_append,
        List.nil_append]
    · left
      rw [if_neg h]
      simp only [List.map_append, List.map_cons, List.map_nil, List.append_nil]
  · intro cue hcue
    replace hcue : cue ∈ cuesT (textOf raw) locale := hcue
    unfold cuesT at hcue
    rw [List.mem_append] at hcue
    rcases hcue with hcue | hcue
    · simp only [List.mem_cons, List.not_mem_nil, or_false] at hcue
      rcases hcue with rfl | rfl | rfl
      · by_cases hsig : (hedgingSignalsT (textOf raw)).isEmpty
        · exact Or.inl (if_pos hsig)
        · exact Or.inr (Or.inr (Or.inr (Or.inr (Or.inl
            ⟨hedgingSignalsT (textOf raw), if_neg hsig⟩))))
      · by_cases hsig : (pressureSignalsT (textOf raw)).isEmpty
        · exact Or.inr (Or.inl (if_pos hsig))
        · exact Or.inr (Or.inr (Or.inr (Or.inr (Or.inr
            ⟨pressureSignalsT (textOf raw), if_neg hsig⟩))))
      · exact Or.inr (Or.inr (Or.inl rfl))
    · by_cases h : 0 < (contradictionCandidatesT (textOf raw)).length
      · rw [if_pos h] at hcue
        simp only [List.mem_singleton] at hcue
        subst hcue
        exact Or.inr (Or.inr (Or.inr (Or.inl rfl)))
      · rw [if_neg h] at hcue
        exact absurd hcue (List.not_mem_nil cue)
  · intro e he
    replace he : e ∈ synthesizeEvidence (highlightedSentencesT (textOf raw))
        (hedgingSignalsT (textOf raw)) (pressureSignalsT (textOf raw)) locale := he
    unfold synthesizeEvidence at he
    by_cases h : (highlightedSentencesT (textOf raw)).isEmpty
    · rw [if_pos h] at he
      simp only [List.mem_singleton] at he
      subst he
      exact ⟨Or.inr (Or.inl rfl), Or.inl rfl⟩
    · rw [if_neg h] at he
      obtain ⟨s, hsmem, j, rfl⟩ := mem_synthEvGo _ _ _ _ _ _ he
      exact ⟨rationale_mem_copy (fallbackDictionary locale) (hedgingSignalsT (textOf raw))
          (pressureSignalsT (textOf raw)) j,
        Or.inr ⟨s, mem_highlightedSentencesT _ _ hsmem, rfl⟩⟩

/-- C7: the two supported locales produce identical numeric and structural
content (scores, every cue value and risk, every metric value, the evidence
count), while the string copy fields of each result come from the respective
locale: the summary instantiates that locale's template over the same
numbers, the cue labels and details, the metric labels and hints, and the
evidence rationales (in particular the placeholder rationale) are drawn from
that locale's copy table. -/
theorem c7_locale_isolation (raw : String) :
    (analyzeTranscriptFallback raw Locale.ko).lieProbability
        = (analyzeTranscriptFallback raw Locale.en).lieProbability
    ∧ (analyzeTranscriptFallback raw Locale.ko).confidenceScore
        = (analyzeTranscriptFallback raw Locale.en).confidenceScore
    ∧ (analyzeTranscriptFallback raw Locale.ko).cues.map (fun c => (c.value, c.risk))
        = (analyzeTranscriptFallback raw Locale.en).cues.map (fun c => (c.value, c.risk))
    ∧ (analyzeTranscriptFallback raw Locale.ko).metrics.map (fun m => m.value)
        = (analyzeTranscriptFallback raw Locale.en).metrics.map (fun m => m.value)
    ∧ (analyzeTranscriptFallback raw Locale.ko).evidence.length
        = (analyzeTranscriptFallback raw Locale.en).evidence.length
    ∧ (analyzeTranscriptFallback raw Locale.ko).summary
        = koCopy.summary (hedgingDensityT (textOf raw)) (pressureDensityT (textOf raw))
            (lieProbabilityT (textOf raw))
    ∧ (analyzeTranscriptFallback raw Locale.en).summary
        = enCopy.summary (hedgingDensityT (textOf raw)) (pressureDensityT (textOf raw))
            (lieProbabilityT (textOf raw))
    ∧ ((analyzeTranscriptFallback raw Locale.ko).cues.map (fun c => c.label)
          = [(fallbackDictionary Locale.ko).hedgingLabel,
             (fallbackDictionary Locale.ko).pressureLabel,
             (fallbackDictionary Locale.ko).negationLabel]
        ∨ (analyzeTranscriptFallback raw Locale.ko).cues.map (fun c => c.label)
          = [(fallbackDictionary Locale.ko).hedgingLabel,
             (fallbackDictionary Locale.ko).pressureLabel,
             (fallbackDictionary Locale.ko).negationLabel,
             (fallbackDictionary Locale.ko).conflictLabel])
    ∧ ((analyzeTranscriptFallback raw Locale.en).cues.map (fun c => c.label)
          = [(fallbackDictionary Locale.en).hedgingLabel,
             (fallbackDictionary Locale.en).pressureLabel,
             (fallbackDictionary Locale.en).negationLabel]
        ∨ (analyzeTranscriptFallback raw Locale.en).cues.map (fun c => c.label)
          = [(fallbackDictionary Locale.en).hedgingLabel,
             (fallbackDictionary Locale.en).pressureLabel,
             (fallbackDictionary Locale.en).negationLabel,
             (fallbackDictionary Locale.en).conflictLabel])
    ∧ (∀ cue ∈ (analyzeTranscriptFallback raw Locale.ko).cues,
        DetailFromCopy (fallbackDictionary Locale.ko) cue.detail)
    ∧ (∀ cue ∈ (analyzeTranscriptFallback raw Locale.en).cues,
        DetailFromCopy (fallbackDictionary Locale.en) cue.detail)
    ∧ (analyzeTranscriptFallback raw Locale.ko).metrics.map (fun m => m.label)
        = [(fallbackDictionary Locale.ko).metrics.wordCountLabel,
           (fallbackDictionary Locale.ko).metrics.coverageLabel,
           (fallbackDictionary Locale.ko).metrics.negationLabel]
    ∧ (analyzeTranscriptFallback raw Locale.en).metrics.map (fun m => m.label)
        = [(fallbackDictionary Locale.en).metrics.wordCountLabel,
           (fallbackDictionary Locale.en).metrics.coverageLabel,
           (fallbackDictionary Locale.en).metrics.negationLabel]
    ∧ (analyzeTranscriptFallback raw Locale.ko).metrics.map (fun m => m.hint)
        = [(fallbackDictionary Locale.ko).metrics.wordCountHint,
           (fallbackDictionary Locale.ko).metrics.coverageHint,
           (fallbackDictionary Locale.ko).metrics.negationHint]
    ∧ (analyzeTranscriptFallback raw Locale.en).metrics.map (fun m => m.hint)
        = [(fallbackDictionary Locale.en).metrics.wordCountHint,
           (fallbackDictionary Locale.en).metrics.coverageHint,
           (fallbackDictionary Locale.en).metrics.negationHint]
    ∧ (∀ e ∈ (analyzeTranscriptFallback raw Locale.ko).evidence,
        RationaleFromCopy (fallbackDictionary Locale.ko) e.rationale)
    ∧ (∀ e ∈ (analyzeTranscriptFallback raw Locale.en).evidence,
        RationaleFromCopy (fallbackDictionary Locale.en) e.rationale) := by
  have kp := copyProvenance raw Locale.ko
  have ep := copyProvenance raw Locale.en
  refine ⟨rfl, rfl, ?_, rfl, synthesizeEvidence_length_locale _ _ _ _ _, rfl, rfl,
    kp.2.1, ep.2.1, kp.2.2.1, ep.2.2.1, kp.2.2.2.1, ep.2.2.2.1, kp.2.2.2.2.1, ep.2.2.2.2.1,
    fun e he => (kp.2.2.2.2.2 e he).1, fun e he => (ep.2.2.2.2.2 e he).1⟩
  show (cuesT (textOf raw) Locale.ko).map (fun c => (c.value, c.risk))
      = (cuesT (textOf raw) Locale.en).map (fun c => (c.value, c.risk))
  unfold cuesT
  simp only [List.map_append, apply_ite (List.map fun (c : CueInsight) => (c.value, c.risk)),
    List.map_cons, List.map_nil]

/-- C7 witness: the placeholder rationale of the empty-input Korean result is
drawn from the Korean copy table. -/
theorem c7_locale_isolation_witness :
    RationaleFromCopy (fallbackDictionary Locale.ko)
      (((analyzeTranscriptFallback "" Locale.ko).evidence.headD
        { quote := "", rationale := "" }).rationale) := by
  have hmem : (analyzeTranscriptFallback "" Locale.ko).evidence.headD
      { quote := "", rationale := "" } ∈ (analyzeTranscriptFallback "" Locale.ko).evidence := by
    decide
  obtain ⟨-, -, -, -, -, -, -, -, -, -, -, -, -, -, -, h16, -⟩ := c7_locale_isolation ""
  exact h16 _ hmem

theorem toList_repeatedMaybe (n : Nat) :
    (repeatedMaybe (n + 1)).toList = maybeText (n + 1) ++ [' '] := by
  induction n with
  | zero => rfl
  | succ k ih =>
    show ("maybe " ++ repeatedMaybe (k + 1)).toList = maybeText (k + 2) ++ [' ']
    rw [show ("maybe " ++ repeatedMaybe (k + 1)).toList
        = "maybe ".toList ++ (repeatedMaybe (k + 1)).toList from String.data_append _ _]
    rw [ih, show maybeText (k + 2) = "maybe ".toList ++ maybeText (k + 1) from rfl,
      List.append_assoc]

theorem maybeText_reverse_head (n : Nat) :
    ∃ t, (maybeText (n + 1)).reverse = 'e' :: t := by
  induction n with
  | zero => exact ⟨['b', 'y', 'a', 'm'], rfl⟩
  | succ k ih =>
    obtain ⟨t, ht⟩ := ih
    refine ⟨t ++ ("maybe ".toList).reverse, ?_⟩
    rw [show maybeText (k + 2) = "maybe ".toList ++ maybeText (k + 1) from rfl,
      List.reverse_append, ht]
    rfl

theorem textOf_repeatedMaybe (n : Nat) :
    textOf (repeatedMaybe (n + 1)) = maybeText (n + 1) := by
  obtain ⟨t, ht⟩ := maybeText_reverse_head n
  unfold textOf jsTrim
  rw [toList_repeatedMaybe]
  rw [show (maybeText (n + 1) ++ [' ']).dropWhile isJsSpace = maybeText (n + 1) ++ [' ']
    from by cases n <;> rfl]
  rw [List.reverse_append, ht]
  rw [show (([' '] : List Char).reverse ++ ('e' :: t)).dropWhile isJsSpace = 'e' :: t from rfl]
  rw [← ht, List.reverse_reverse]

theorem lowerT_maybeText (n : Nat) : lowerT (maybeText n) = maybeText n := by
  induction n with
  | zero => rfl
  | succ m ih =>
    cases m with
    | zero => rfl
    | succ k =>
      show lowerT ("maybe ".toList ++ maybeText (k + 1)) = "maybe ".toList ++ maybeText (k + 1)
      unfold lowerT
      rw [List.map_append, show List.map asciiLower (maybeText (k + 1)) = maybeText (k + 1)
        from ih]
      rfl

theorem words_maybeText (n : Nat) : (splitWords (maybeText n)).length = n := by
  induction n with
  | zero => rfl
  | succ m ih =>
    cases m with
    | zero => rfl
    | succ k =>
      show (splitWords ("maybe ".toList ++ maybeText (k + 1))).length = k + 2
      rw [show splitWords ("maybe ".toList ++ maybeText (k + 1))
          = "maybe".toList :: splitWords (maybeText (k + 1)) from rfl]
      rw [List.length_cons, ih]

theorem hedging_hits_ws (n : Nat) :
    countScanGo 'm' "aybe".toList 0 (some ' ') (maybeText n) = n
    ∧ countScanGo 'p' "erhaps".toList 0 (some ' ') (maybeText n) = 0
    ∧ countScanGo 'p' "ossibly".toList 0 (some ' ') (maybeText n) = 0
    ∧ countScanGo 'm' "ight".toList 0 (some ' ') (maybeText n) = 0
    ∧ countScanGo 'g' "uess".toList 0 (some ' ') (maybeText n) = 0
    ∧ countScanGo 'a' "round".toList 0 (some ' ') (maybeText n) = 0
    ∧ countScanGo 'r' "oughly".toList 0 (some ' ') (maybeText n) = 0
    ∧ countScanGo 's' "eems".toList 0 (some ' ') (maybeText n) = 0
    ∧ countScanGo 'k' "ind of".toList 0 (some ' ') (maybeText n) = 0
    ∧ countScanGo 's' "ort of".toList 0 (some ' ') (maybeText n) = 0
    ∧ countScanGo 'p' "robably".toList 0 (some ' ') (maybeText n) = 0
    ∧ countScanGo 'i' " think".toList 0 (some ' ') (maybeText n) = 0
    ∧ countScanGo 'i' " believe".toList 0 (some ' ') (maybeText n) = 0
    ∧ countScanGo 'c' "ould be".toList 0 (some ' ') (maybeText n) = 0 := by
  induction n with
  | zero => exact ⟨rfl, rfl, rfl, rfl, rfl, rfl, rfl, rfl, rfl, rfl, rfl, rfl, rfl, rfl⟩
  | succ m ih =>
    cases m with
    | zero => exact ⟨rfl, rfl, rfl, rfl, rfl, rfl, rfl, rfl, rfl, rfl, rfl, rfl, rfl, rfl⟩
    | succ k =>
      obtain ⟨h1, h2, h3, h4, h5, h6, h7, h8, h9, h10, h11, h12, h13, h14⟩ := ih
      refine ⟨?_, h2, h3, h4, h5, h6, h7, h8, h9, h10, h11, h12, h13, h14⟩
      show 1 + countScanGo 'm' "aybe".toList 0 (some ' ') (maybeText (k + 1)) = k + 2
      rw [h1]
      omega

theorem countKeywordHits_maybeText (n : Nat) :
    countKeywordHits (maybeText n) hedgingKeywords = n := by
  cases n with
  | zero => rfl
  | succ m =>
    cases m with
    | zero => rfl
    | succ k =>
      obtain ⟨h1, h2, h3, h4, h5, h6, h7, h8, h9, h10, h11, h12, h13, h14⟩ :=
        hedging_hits_ws (k + 1)
      show 0 + (1 + countScanGo 'm' "aybe".toList 0 (some ' ') (maybeText (k + 1)))
          + countScanGo 'p' "erhaps".toList 0 (some ' ') (maybeText (k + 1))
          + countScanGo 'p' "ossibly".toList 0 (some ' ') (maybeText (k + 1))
          + countScanGo 'm' "ight".toList 0 (some ' ') (maybeText (k + 1))
          + countScanGo 'g' "uess".toList 0 (some ' ') (maybeText (k + 1))
          + countScanGo 'a' "round".toList 0 (some ' ') (maybeText (k + 1))
          + countScanGo 'r' "oughly".toList 0 (some ' ') (maybeText (k + 1))
          + countScanGo 's' "eems".toList 0 (some ' ') (maybeText (k + 1))
          + countScanGo 'k' "ind of".toList 0 (some ' ') (maybeText (k + 1))
          + countScanGo 's' "ort of".toList 0 (some ' ') (maybeText (k + 1))
          + countScanGo 'p' "robably".toList 0 (some ' ') (maybeText (k + 1))
          + countScanGo 'i' " think".toList 0 (some ' ') (maybeText (k + 1))
          + countScanGo 'i' " believe".toList 0 (some ' ') (maybeText (k + 1))
          + countScanGo 'c' "ould be".toList 0 (some ' ') (maybeText (k + 1))
          = k + 2
      rw [h1, h2, h3, h4, h5, h6, h7, h8, h9, h10, h11, h12, h13, h14]
      omega

theorem toFixed1_one_hundred : toFixed1 ((1 : ℚ) * 100) = "100.0" := by
  unfold toFixed1
  rw [jsRound_eq (1 * 100 * 10) 1000 (by norm_num) (by norm_num)]
  decide

theorem toFixed1_zero_hundred : toFixed1 ((0 : ℚ) * 100) = "0.0" := by
  unfold toFixed1
  rw [jsRound_eq (0 * 100 * 10) 0 (by norm_num) (by norm_num)]
  decide

theorem hedgingDensityT_one (raw : String) (n : Nat)
    (h1 : countKeywordHits (lowerT (textOf raw)) hedgingKeywords = n)
    (h2 : Nat.max (wordsT (textOf raw)).length 1 = n) (hn : 0 < n) :
    hedgingDensityT (textOf raw) = 1 := by
  have hne : ((n : Nat) : ℚ) ≠ 0 := Nat.cast_ne_zero.mpr hn.ne'
  unfold hedgingDensityT hedgingHitsT
  rw [h1, h2, div_self hne]

theorem hedging_value_100 (raw : String) (locale : Locale)
    (h : hedgingDensityT (textOf raw) = 1) :
    ((analyzeTranscriptFallback raw locale).cues.map (fun c => c.value)).head?
      = some "100.0%" := by
  have e : ((analyzeTranscriptFallback raw locale).cues.map (fun c => c.value)).head?
      = some (toFixed1 (hedgingDensityT (textOf raw) * 100) ++ "%") := rfl
  rw [e, h, toFixed1_one_hundred]
  decide

theorem repeatedMaybe_density (n : Nat) :
    hedgingDensityOf (repeatedMaybe (n + 1)) = 1 := by
  have htext := textOf_repeatedMaybe n
  have hhits : countKeywordHits (lowerT (textOf (repeatedMaybe (n + 1)))) hedgingKeywords
      = n + 1 := by
    rw [htext, lowerT_maybeText]
    exact countKeywordHits_maybeText (n + 1)
  have hwords : Nat.max (wordsT (textOf (repeatedMaybe (n + 1)))).length 1 = n + 1 := by
    rw [htext]
    unfold wordsT
    rw [lowerT_maybeText, words_maybeText]
    show max (n + 1) 1 = n + 1
    omega
  exact hedgingDensityT_one (repeatedMaybe (n + 1)) (n + 1) hhits hwords (by omega)

theorem hedging_risk_facts (raw : String) (locale : Locale) :
    ((0.035 : ℚ) < hedgingDensityOf raw →
      ((analyzeTranscriptFallback raw locale).cues.map (fun c => c.risk)).head?
        = some CueRisk.Elevated)
    ∧ ((analyzeTranscriptFallback raw locale).cues.map (fun c => c.risk)).head?
        ≠ some CueRisk.Critical := by
  have e : ((analyzeTranscriptFallback raw locale).cues.map (fun c => c.risk)).head?
      = some (if (0.035 : ℚ) < hedgingDensityOf raw then CueRisk.Elevated
          else if (0.02 : ℚ) < hedgingDensityOf raw then CueRisk.Baseline
          else CueRisk.Baseline) := rfl
  constructor
  · intro h
    rw [e, if_pos h]
  · rw [e]
    split
    · simp
    · split <;> simp

/-- C8 counterexample: for one, two and three repetitions of the hedging
keyword "maybe " the hedging cue value is the same "100.0%" (the density is
hits over words, which is constantly one for such text), so the value does
not strictly increase with the repetition count. -/
theorem c8_counterexample :
    ((analyzeTranscriptFallback "maybe " Locale.en).cues.map (fun c => c.value)).head?
        = some "100.0%"
    ∧ ((analyzeTranscriptFallback "maybe maybe " Locale.en).cues.map (fun c => c.value)).head?
        = some "100.0%"
    ∧ ((analyzeTranscriptFallback "maybe maybe maybe " Locale.en).cues.map
        (fun c => c.value)).head? = some "100.0%" := by
  refine ⟨?_, ?_, ?_⟩
  · exact hedging_value_100 "maybe " Locale.en
      (hedgingDensityT_one "maybe " 1 rfl rfl (by decide))
  · exact hedging_value_100 "maybe maybe " Locale.en
      (hedgingDensityT_one "maybe maybe " 2 rfl rfl (by decide))
  · exact hedging_value_100 "maybe maybe maybe " Locale.en
      (hedgingDensityT_one "maybe maybe maybe " 3 rfl rfl (by decide))

/-- C8 (amended): for text consisting of n repetitions of the claim's
exemplar hedging keyword ("maybe " repeated n times) the hedging density is
exactly one for every n ≥ 1 — hits and word count both equal n — so the
hedging cue's value is the constant "100.0%" and its risk Elevated for every
such n; the value therefore does not strictly increase with the repetition
count. In general the hedging cue's risk is 'Elevated' whenever the hedging
density exceeds 0.035, and the hedging cue's risk is never 'Critical'. -/
theorem c8_amended :
    (∀ n : Nat, 1 ≤ n →
      hedgingDensityOf (repeatedMaybe n) = 1
      ∧ ∀ locale : Locale,
          ((analyzeTranscriptFallback (repeatedMaybe n) locale).cues.map
            (fun c => c.value)).head? = some "100.0%"
          ∧ ((analyzeTranscriptFallback (repeatedMaybe n) locale).cues.map
            (fun c => c.risk)).head? = some CueRisk.Elevated)
    ∧ ∀ (raw : String) (locale : Locale),
        ((0.035 : ℚ) < hedgingDensityOf raw →
          ((analyzeTranscriptFallback raw locale).cues.map (fun c => c.risk)).head?
            = some CueRisk.Elevated)
        ∧ ((analyzeTranscriptFallback raw locale).cues.map (fun c => c.risk)).head?
          ≠ some CueRisk.Critical := by
  constructor
  · intro n hn
    obtain ⟨m, rfl⟩ : ∃ m, n = m + 1 := ⟨n - 1, by omega⟩
    have hd := repeatedMaybe_density m
    refine ⟨hd, fun locale => ⟨hedging_value_100 _ locale hd, ?_⟩⟩
    refine (hedging_risk_facts (repeatedMaybe (m + 1)) locale).1 ?_
    rw [hd]
    norm_num
  · exact hedging_risk_facts

/-- C8 witness: instantiation at one repetition of the keyword. -/
theorem c8_amended_witness :
    hedgingDensityOf (repeatedMaybe 1) = 1
    ∧ ((analyzeTranscriptFallback (repeatedMaybe 1) Locale.en).cues.map
        (fun c => c.risk)).head? = some CueRisk.Elevated :=
  ⟨(c8_amended.1 1 (by omega)).1, ((c8_amended.1 1 (by omega)).2 Locale.en).2⟩

/-- C9: keyword matching is word-boundary based: "A notable example."
contains "notable" as a substring but no standalone "not" (or any other
negation keyword), so the negation keyword "not" scores zero hits, the whole
negation list scores zero, and the negation cue value is "0.0%" in both
locales. -/
theorem c9_word_boundary :
    countKeyword (lowerT (textOf "A notable example.")) "not" = 0
    ∧ countKeywordHits (lowerT (textOf "A notable example.")) negationKeywords = 0
    ∧ isSubstring "notable".toList (lowerT (textOf "A notable example.")) = true
    ∧ (((analyzeTranscriptFallback "A notable example." Locale.ko).cues.map
        (fun c => c.value)).getD 2 "") = "0.0%"
    ∧ (((analyzeTranscriptFallback "A notable example." Locale.en).cues.map
        (fun c => c.value)).getD 2 "") = "0.0%" := by
  have hd : negationDensityT (textOf "A notable example.") = 0 := by
    unfold negationDensityT negationHitsT
    rw [show countKeywordHits (lowerT (textOf "A notable example.")) negationKeywords = 0
      from rfl]
    simp
  refine ⟨by decide, by decide, by decide, ?_, ?_⟩
  · have e : (((analyzeTranscriptFallback "A notable example." Locale.ko).cues.map
        (fun c => c.value)).getD 2 "")
        = toFixed1 (negationDensityT (textOf "A notable example.") * 100) ++ "%" := rfl
    rw [e, hd, toFixed1_zero_hundred]
    decide
  · have e : (((analyzeTranscriptFallback "A notable example." Locale.en).cues.map
        (fun c => c.value)).getD 2 "")
        = toFixed1 (negationDensityT (textOf "A notable example.") * 100) ++ "%" := rfl
    rw [e, hd, toFixed1_zero_hundred]
    decide

theorem head_of_lit_append (p : String) (c : Char) (rest l : List Char)
    (hp : p.data = c :: rest) : (p.data ++ l).head? = some c := by
  rw [hp]
  rfl

/-- C10 counterexample: the word-count metric value of the Korean-locale
result for the empty input is "0 terms", a string with the hardcoded English
unit "terms" that no constant or template of the Korean copy table can
produce — so not every text field of a result is drawn from that single
locale's copy. -/
theorem c10_counterexample :
    (((analyzeTranscriptFallback "" Locale.ko).metrics.map (fun m => m.value)).getD 0 ""
        = "0 terms")
    ∧ ¬ FromCopyFull koCopy "0 terms" := by
  constructor
  · decide
  · intro hcopy
    rcases hcopy with hmem | ⟨sig, hs⟩ | ⟨sig, hs⟩ | ⟨a, b, c, hs⟩ | ⟨t, hs⟩ | ⟨t, hs⟩
    · revert hmem
      decide
    · rw [show koCopy.hedgingDetail sig = "불확실성 지표 탐지: " ++ joinSep ", " sig
        from rfl] at hs
      have h3 := congrArg (fun s => s.data.head?) hs
      simp only [String.data_append, List.append_assoc] at h3
      rw [head_of_lit_append "불확실성 지표 탐지: " '불' _ _ rfl] at h3
      exact absurd h3 (by decide)
    · rw [show koCopy.pressureDetail sig = "보증성 어휘 관측: " ++ joinSep ", " sig
        from rfl] at hs
      have h3 := congrArg (fun s => s.data.head?) hs
      simp only [String.data_append, List.append_assoc] at h3
      rw [head_of_lit_append "보증성 어휘 관측: " '보' _ _ rfl] at h3
      exact absurd h3 (by decide)
    · rw [show koCopy.summary a b c
          = "RoBERTa-LIAR 로컬 앙상블 결과: 헤징 " ++ toFixed1 (a * 100)
            ++ "%, 압박 " ++ toFixed1 (b * 100)
            ++ "% → 추정 위험도 " ++ Int.repr c ++ "%." from rfl] at hs
      have h3 := congrArg (fun s => s.data.head?) hs
      simp only [String.data_append, List.append_assoc] at h3
      rw [head_of_lit_append "RoBERTa-LIAR 로컬 앙상블 결과: 헤징 " 'R' _ _ rfl] at h3
      exact absurd h3 (by decide)
    · rw [show koCopy.evidence.hedgePrefix = "헤징 지표" from rfl] at hs
      have h3 := congrArg (fun s => s.data.head?) hs
      simp only [String.data_append, List.append_assoc] at h3
      rw [head_of_lit_append "헤징 지표" '헤' _ _ rfl] at h3
      exact absurd h3 (by decide)
    · rw [show koCopy.evidence.pressurePrefix = "압박 지표" from rfl] at hs
      have h3 := congrArg (fun s => s.data.head?) hs
      simp only [String.data_append, List.append_assoc] at h3
      rw [head_of_lit_append "압박 지표" '압' _ _ rfl] at h3
      exact absurd h3 (by decide)

/-- C10 (amended): every copy-backed text field of a result is drawn from the
selected locale's copy table — the summary instantiates that locale's
template, cue labels and details, metric labels and hints, and evidence
rationales all come from that locale's entries, and every evidence quote is
either that locale's placeholder or a verbatim transcript sentence; the
formatted numeric values (cue and metric value strings) are not copy at all:
the word-count metric value carries the hardcoded English unit "terms" in
both locales (see the counterexample). -/
theorem c10_amended (raw : String) (locale : Locale) :
    (∃ h p lp, (analyzeTranscriptFallback raw locale).summary
        = (fallbackDictionary locale).summary h p lp)
    ∧ ((analyzeTranscriptFallback raw locale).cues.map (fun c => c.label)
          = [(fallbackDictionary locale).hedgingLabel, (fallbackDictionary locale).pressureLabel,
             (fallbackDictionary locale).negationLabel]
        ∨ (analyzeTranscriptFallback raw locale).cues.map (fun c => c.label)
          = [(fallbackDictionary locale).hedgingLabel, (fallbackDictionary locale).pressureLabel,
             (fallbackDictionary locale).negationLabel, (fallbackDictionary locale).conflictLabel])
    ∧ (∀ cue ∈ (analyzeTranscriptFallback raw locale).cues,
        DetailFromCopy (fallbackDictionary locale) cue.detail)
    ∧ (analyzeTranscriptFallback raw locale).metrics.map (fun m => m.label)
        = [(fallbackDictionary locale).metrics.wordCountLabel,
           (fallbackDictionary locale).metrics.coverageLabel,
           (fallbackDictionary locale).metrics.negationLabel]
    ∧ (analyzeTranscriptFallback raw locale).metrics.map (fun m => m.hint)
        = [(fallbackDictionary locale).metrics.wordCountHint,
           (fallbackDictionary locale).metrics.coverageHint,
           (fallbackDictionary locale).metrics.negationHint]
    ∧ (∀ e ∈ (analyzeTranscriptFallback raw locale).evidence,
        RationaleFromCopy (fallbackDictionary locale) e.rationale
        ∧ (e.quote = (fallbackDictionary locale).evidence.noDataQuote
            ∨ ∃ s, s ∈ sentencesOf raw ∧ e.quote = String.mk s)) :=
  copyProvenance raw locale

/-- C10 witness: the placeholder rationale of the empty-input English result
is drawn from the English copy table. -/
theorem c10_amended_witness :
    RationaleFromCopy (fallbackDictionary Locale.en)
      (((analyzeTranscriptFallback "" Locale.en).evidence.headD
        { quote := "", rationale := "" }).rationale) := by
  have hmem : (analyzeTranscriptFallback "" Locale.en).evidence.headD
      { quote := "", rationale := "" } ∈ (analyzeTranscriptFallback "" Locale.en).evidence := by
    decide
  exact ((c10_amended "" Locale.en).2.2.2.2.2 _ hmem).1

end LieAnalyzer
